import Mathlib

/-!
# Verification of the strands-metrics sync engine specification

A shallow embedding of the metrics-sync engine of the `community-dashboard`
component of `strands-agents/devtools` (the Rust CLI `strands-metrics`) and
of the shell pipelines that drive it, together with proofs of the spec's
invariants: upsert idempotence, cursor monotonicity, aggregation
determinism, sweep correctness, partial-failure isolation, the token
guard, the `--db-path` default, the download-sync window, the sweep
frame property, and the fail-fast behaviour of the daily pipeline.

The Rust sources of the CLI (`main.rs`, `client.rs`, `db.rs`,
`downloads.rs`, `goals.rs`, `aggregates.rs`) are not part of the source
tree available here; only their documentation, configuration and the
shell scripts that invoke the CLI are.  Engine definitions below are
therefore modelled from the specification, as their doc comments state.
The shell-pipeline definitions are modelled directly from the shell
sources (`sync-all` script and the cron chain in the container
entrypoint).
-/

namespace StrandsMetrics

/-! ## Storage layer: keyed tables and the upsert primitive -/

/-- Modelled from the spec: the Storage Layer's `upsert(table, key_columns,
record)` primitive (§4.6, `db.rs` missing from the source tree).  A table
is an association list from a key to a record; `upsert` replaces the
record stored at the key when the key is present and appends the pair
otherwise. -/
def upsert {κ α : Type} [DecidableEq κ] : List (κ × α) → κ → α → List (κ × α)
  | [], k, v => [(k, v)]
  | (k', v') :: t, k, v =>
      if k' = k then (k, v) :: t else (k', v') :: upsert t k v

/-- Modelled from the spec: point lookup in a keyed table (the Storage
Layer's read primitive, `db.rs` missing from the source tree). -/
def lookupTbl {κ α : Type} [DecidableEq κ] : List (κ × α) → κ → Option α
  | [], _ => none
  | (k', v') :: t, k => if k' = k then some v' else lookupTbl t k

theorem lookupTbl_upsert_self {κ α : Type} [DecidableEq κ]
    (t : List (κ × α)) (k : κ) (v : α) :
    lookupTbl (upsert t k v) k = some v := by
  induction t with
  | nil => simp [upsert, lookupTbl]
  | cons p t ih =>
      obtain ⟨k', v'⟩ := p
      by_cases h : k' = k
      · simp [upsert, lookupTbl, h]
      · simp [upsert, lookupTbl, h, ih]

theorem lookupTbl_upsert_ne {κ α : Type} [DecidableEq κ]
    (t : List (κ × α)) (k k' : κ) (v : α) (h : k' ≠ k) :
    lookupTbl (upsert t k' v) k = lookupTbl t k := by
  induction t with
  | nil => simp [upsert, lookupTbl, h]
  | cons p t ih =>
      obtain ⟨k₀, v₀⟩ := p
      by_cases h₀ : k₀ = k'
      · subst h₀; simp [upsert, lookupTbl, h]
      · by_cases h₁ : k₀ = k
        · subst h₁; simp [upsert, lookupTbl, h₀, Ne.symm h]
        · simp [upsert, lookupTbl, h₀, h₁, ih]

theorem upsert_idem {κ α : Type} [DecidableEq κ]
    (t : List (κ × α)) (k : κ) (v : α) :
    upsert (upsert t k v) k v = upsert t k v := by
  induction t with
  | nil => simp [upsert]
  | cons p t ih =>
      obtain ⟨k', v'⟩ := p
      by_cases h : k' = k
      · simp [upsert, h]
      · simp [upsert, h, ih]

theorem upsert_of_lookup_eq {κ α : Type} [DecidableEq κ]
    (t : List (κ × α)) (k : κ) (v : α) (h : lookupTbl t k = some v) :
    upsert t k v = t := by
  induction t with
  | nil => simp [lookupTbl] at h
  | cons p t ih =>
      obtain ⟨k', v'⟩ := p
      by_cases hk : k' = k
      · subst hk
        simp [lookupTbl] at h
        simp [upsert, h]
      · simp [lookupTbl, hk] at h
        simp [upsert, hk, ih h]

theorem lookupTbl_isSome_upsert {κ α : Type} [DecidableEq κ]
    (t : List (κ × α)) (k k' : κ) (v : α)
    (h : (lookupTbl t k).isSome) :
    (lookupTbl (upsert t k' v) k).isSome := by
  by_cases hk : k' = k
  · subst hk; simp [lookupTbl_upsert_self]
  · rw [lookupTbl_upsert_ne t k k' v hk]; exact h

/-! ## Sync engine: incremental fetch-and-upsert with a persisted cursor -/

/-- A raw entity record as fetched from the code-hosting API: keyed by
(repo, upstream id), carrying its upstream `updated_at` timestamp and an
opaque payload standing for the remaining columns. -/
structure RawRecord where
  repo : String
  uid : Nat
  updatedAt : Nat
  payload : Nat
deriving DecidableEq, Repr

/-- The (repo, upstream_id) key every raw entity table is keyed by. -/
def recKey (r : RawRecord) : String × Nat := (r.repo, r.uid)

/-- A raw entity table keyed by (repo, upstream_id). -/
abbrev RawTable := List ((String × Nat) × RawRecord)

/-- Modelled from the spec: upserting one fetched record into a raw
entity table, keyed by (repo, upstream_id) (§3 invariants; `db.rs`
missing from the source tree). -/
def applyRecord (t : RawTable) (r : RawRecord) : RawTable :=
  upsert t (recKey r) r

/-- Modelled from the spec: upserting every record of one fetched page,
in page order, inside a single transaction (§4.2 step 3; `main.rs`
missing from the source tree). -/
def applyPageRecords (t : RawTable) (page : List RawRecord) : RawTable :=
  page.foldl applyRecord t

/-- Per (entity_type, repo) sync state: the raw table and the persisted
`SyncCursor.updated_at` watermark. -/
structure SyncState where
  tbl : RawTable
  cursor : Nat
deriving DecidableEq, Repr

/-- The maximum `updated_at` observed in a page, starting from the
current cursor (an empty page leaves the cursor unchanged). -/
def pageMax (c : Nat) (page : List RawRecord) : Nat :=
  page.foldl (fun m r => max m r.updatedAt) c

/-- Modelled from the spec: processing one page — commit the page's
upserts in one transaction, then advance the persisted cursor to the
maximum `updated_at` observed in that page (§4.2 steps 3–4; `main.rs`
missing from the source tree). -/
def applyPage (st : SyncState) (page : List RawRecord) : SyncState :=
  { tbl := applyPageRecords st.tbl page
    cursor := pageMax st.cursor page }

/-- Modelled from the spec: the fetch/upsert loop over the page stream
for one (entity_type, repo) pair (§4.2; `main.rs` missing from the
source tree). -/
def runSyncPages (st : SyncState) (pages : List (List RawRecord)) : SyncState :=
  pages.foldl applyPage st

/-- Modelled from the spec: the intermediate durable states of one sync
loop: for each page, first the state after the page's batch transaction
committed (table updated, cursor untouched), then the state after the
cursor advanced (§4.2 state machine `Fetching → Upserting →
CursorAdvanced`). -/
def syncTrace : SyncState → List (List RawRecord) → List SyncState
  | st, [] => [st]
  | st, p :: ps =>
      let committed : SyncState := { st with tbl := applyPageRecords st.tbl p }
      let advanced : SyncState := { committed with cursor := pageMax st.cursor p }
      st :: committed :: syncTrace advanced ps

/-- Modelled from the spec: the API Client returns pages filtered by
`updated_at >= cursor` (§4.2 step 2; `client.rs` missing from the source
tree).  The upstream truth for one (entity_type, repo) pair is a list of
current records; a fetch returns those at or after the cursor, as one
page. -/
def fetchRecords (upstream : List RawRecord) (c : Nat) : List RawRecord :=
  upstream.filter (fun r => c ≤ r.updatedAt)

/-- Modelled from the spec: one `sync` run for one (entity_type, repo)
pair against a fixed upstream — fetch everything at or after the stored
cursor and process it as the page stream (§4.2; `main.rs` missing from
the source tree). -/
def syncRun (upstream : List RawRecord) (st : SyncState) : SyncState :=
  runSyncPages st [fetchRecords upstream st.cursor]

theorem cursor_le_pageMax (c : Nat) (page : List RawRecord) :
    c ≤ pageMax c page := by
  induction page generalizing c with
  | nil => simp [pageMax]
  | cons r page ih =>
      calc c ≤ max c r.updatedAt := le_max_left _ _
        _ ≤ pageMax (max c r.updatedAt) page := ih _
        _ = pageMax c (r :: page) := rfl

theorem updatedAt_le_pageMax (c : Nat) (page : List RawRecord)
    (r : RawRecord) (h : r ∈ page) : r.updatedAt ≤ pageMax c page := by
  induction page generalizing c with
  | nil => simp at h
  | cons q page ih =>
      rcases List.mem_cons.mp h with h | h
      · subst h
        calc r.updatedAt ≤ max c r.updatedAt := le_max_right _ _
          _ ≤ pageMax (max c r.updatedAt) page := cursor_le_pageMax _ _
      · exact ih _ h

theorem cursor_le_runSyncPages (st : SyncState) (pages : List (List RawRecord)) :
    st.cursor ≤ (runSyncPages st pages).cursor := by
  induction pages generalizing st with
  | nil => simp [runSyncPages]
  | cons p ps ih =>
      calc st.cursor ≤ pageMax st.cursor p := cursor_le_pageMax _ _
        _ = (applyPage st p).cursor := rfl
        _ ≤ (runSyncPages (applyPage st p) ps).cursor := ih _
        _ = (runSyncPages st (p :: ps)).cursor := rfl

theorem lookupTbl_applyPageRecords_not_mem (t : RawTable)
    (page : List RawRecord) (k : String × Nat)
    (h : k ∉ page.map recKey) :
    lookupTbl (applyPageRecords t page) k = lookupTbl t k := by
  induction page generalizing t with
  | nil => rfl
  | cons q page ih =>
      simp only [List.map_cons, List.mem_cons, not_or] at h
      show lookupTbl (applyPageRecords (applyRecord t q) page) k = _
      rw [ih _ h.2, applyRecord, lookupTbl_upsert_ne _ _ _ _ (fun hh => h.1 hh.symm)]

theorem lookupTbl_applyPageRecords_of_mem (t : RawTable)
    (page : List RawRecord) (r : RawRecord)
    (hnd : (page.map recKey).Nodup) (hr : r ∈ page) :
    lookupTbl (applyPageRecords t page) (recKey r) = some r := by
  induction page generalizing t with
  | nil => simp at hr
  | cons q page ih =>
      simp only [List.map_cons, List.nodup_cons] at hnd
      rcases List.mem_cons.mp hr with h | h
      · subst h
        show lookupTbl (applyPageRecords (applyRecord t r) page) (recKey r) = some r
        rw [lookupTbl_applyPageRecords_not_mem _ _ _ hnd.1, applyRecord,
          lookupTbl_upsert_self]
      · exact ih _ hnd.2 h

theorem applyPageRecords_noop (t : RawTable) (page : List RawRecord)
    (h : ∀ r ∈ page, lookupTbl t (recKey r) = some r) :
    applyPageRecords t page = t := by
  induction page with
  | nil => rfl
  | cons q page ih =>
      have hq : applyRecord t q = t :=
        upsert_of_lookup_eq _ _ _ (h q (List.mem_cons_self _ _))
      show applyPageRecords (applyRecord t q) page = t
      rw [hq]
      exact ih (fun r hr => h r (List.mem_cons_of_mem _ hr))

/-- C1.  For every raw entity table, upsert keyed by (repo, upstream_id)
is idempotent — applying the same fetched record twice leaves the table
equal to applying it once — and consequently running `sync` twice in a
row against an unchanged upstream leaves the raw table unchanged after
the second run (only the cursor may be bumped). -/
theorem upsert_sync_idempotent (t : RawTable) (r : RawRecord)
    (upstream : List RawRecord) (st : SyncState)
    (hnodup : (upstream.map recKey).Nodup) :
    applyRecord (applyRecord t r) r = applyRecord t r ∧
    (syncRun upstream (syncRun upstream st)).tbl = (syncRun upstream st).tbl := by
  refine ⟨upsert_idem _ _ _, ?_⟩
  set page1 := fetchRecords upstream st.cursor with hpage1
  have hst1 : syncRun upstream st =
      { tbl := applyPageRecords st.tbl page1, cursor := pageMax st.cursor page1 } := rfl
  have hnd1 : (page1.map recKey).Nodup :=
    hnodup.sublist (List.Sublist.map recKey (List.filter_sublist upstream))
  have hcur : st.cursor ≤ pageMax st.cursor page1 := cursor_le_pageMax _ _
  have hsub : ∀ r' ∈ fetchRecords upstream (pageMax st.cursor page1), r' ∈ page1 := by
    intro r' hr'
    rw [fetchRecords, List.mem_filter] at hr'
    rw [hpage1, fetchRecords, List.mem_filter]
    refine ⟨hr'.1, ?_⟩
    have h2 := of_decide_eq_true hr'.2
    exact decide_eq_true (le_trans hcur h2)
  rw [hst1]
  show (runSyncPages _ _).tbl = _
  simp only [runSyncPages, List.foldl_cons, List.foldl_nil, applyPage]
  exact applyPageRecords_noop _ _ (fun r' hr' =>
    lookupTbl_applyPageRecords_of_mem _ _ _ hnd1 (hsub r' hr'))

/-- Witness for `upsert_sync_idempotent` at a concrete table, record,
upstream and state. -/
theorem upsert_sync_idempotent_witness :
    (([⟨"sdk-python", 1, 5, 10⟩, ⟨"sdk-python", 2, 7, 20⟩] :
        List RawRecord).map recKey).Nodup ∧
    (applyRecord (applyRecord [] ⟨"sdk-python", 1, 5, 10⟩) ⟨"sdk-python", 1, 5, 10⟩ =
        applyRecord [] ⟨"sdk-python", 1, 5, 10⟩ ∧
      (syncRun [⟨"sdk-python", 1, 5, 10⟩, ⟨"sdk-python", 2, 7, 20⟩]
          (syncRun [⟨"sdk-python", 1, 5, 10⟩, ⟨"sdk-python", 2, 7, 20⟩] ⟨[], 0⟩)).tbl =
        (syncRun [⟨"sdk-python", 1, 5, 10⟩, ⟨"sdk-python", 2, 7, 20⟩] ⟨[], 0⟩).tbl) :=
  ⟨by decide, upsert_sync_idempotent [] ⟨"sdk-python", 1, 5, 10⟩
    [⟨"sdk-python", 1, 5, 10⟩, ⟨"sdk-python", 2, 7, 20⟩] ⟨[], 0⟩ (by decide)⟩

/-- Modelled from the spec: the API Client returns pages
"filtered/sorted by `updated_at >= cursor`, ascending" (§4.2 step 2), so
every record of the first page is at or after the cursor and every record
of a later page is at or after the running maximum of the pages before
it. -/
def pagesAscending : Nat → List (List RawRecord) → Bool
  | _, [] => true
  | c, p :: ps =>
      p.all (fun r => decide (c ≤ r.updatedAt)) && pagesAscending (pageMax c p) ps

theorem pagesAscending_all (c : Nat) (ps : List (List RawRecord))
    (h : pagesAscending c ps = true) :
    ∀ p ∈ ps, ∀ r ∈ p, c ≤ r.updatedAt := by
  induction ps generalizing c with
  | nil => intro p hp; simp at hp
  | cons q ps ih =>
      rw [pagesAscending, Bool.and_eq_true] at h
      intro p hp r hr
      rcases List.mem_cons.mp hp with h' | h'
      · subst h'
        exact of_decide_eq_true (List.all_eq_true.mp h.1 r hr)
      · exact le_trans (cursor_le_pageMax c q) (ih _ h.2 p h' r hr)

theorem isSome_applyPageRecords (t : RawTable) (page : List RawRecord)
    (k : String × Nat) (h : (lookupTbl t k).isSome) :
    (lookupTbl (applyPageRecords t page) k).isSome := by
  induction page generalizing t with
  | nil => exact h
  | cons q page ih =>
      exact ih _ (lookupTbl_isSome_upsert _ _ _ _ h)

theorem isSome_applyPageRecords_of_mem (t : RawTable)
    (page : List RawRecord) (r : RawRecord) (hr : r ∈ page) :
    (lookupTbl (applyPageRecords t page) (recKey r)).isSome := by
  induction page generalizing t with
  | nil => simp at hr
  | cons q page ih =>
      rcases List.mem_cons.mp hr with h | h
      · subst h
        have h0 : (lookupTbl (applyRecord t r) (recKey r)).isSome := by
          simp only [applyRecord, lookupTbl_upsert_self, Option.isSome_some]
        exact isSome_applyPageRecords (applyRecord t r) page (recKey r) h0
      · exact ih _ h

theorem syncTrace_isSome_mono (st : SyncState) (pages : List (List RawRecord))
    (s : SyncState) (hs : s ∈ syncTrace st pages) (k : String × Nat)
    (h : (lookupTbl st.tbl k).isSome) :
    (lookupTbl s.tbl k).isSome := by
  induction pages generalizing st with
  | nil =>
      rcases List.mem_singleton.mp hs with rfl
      exact h
  | cons p ps ih =>
      rcases List.mem_cons.mp hs with h' | hs'
      · subst h'; exact h
      rcases List.mem_cons.mp hs' with h' | hs'
      · subst h'
        exact isSome_applyPageRecords _ _ _ h
      · exact ih _ hs' (isSome_applyPageRecords _ _ _ h)

theorem syncTrace_commit_before_advance (st : SyncState)
    (pages : List (List RawRecord))
    (hAsc : pagesAscending st.cursor pages = true) :
    ∀ s ∈ syncTrace st pages, ∀ p ∈ pages, ∀ r ∈ p,
      r.updatedAt < s.cursor → (lookupTbl s.tbl (recKey r)).isSome := by
  induction pages generalizing st with
  | nil => intro s hs p hp; simp at hp
  | cons p ps ih =>
      rw [pagesAscending, Bool.and_eq_true] at hAsc
      have hfirst : ∀ r ∈ p, st.cursor ≤ r.updatedAt := fun r hr =>
        of_decide_eq_true (List.all_eq_true.mp hAsc.1 r hr)
      have hrest : ∀ q ∈ ps, ∀ r ∈ q, pageMax st.cursor p ≤ r.updatedAt :=
        pagesAscending_all _ _ hAsc.2
      intro s hs q hq r hr hlt
      have hge : st.cursor ≤ r.updatedAt := by
        rcases List.mem_cons.mp hq with h' | h'
        · subst h'; exact hfirst r hr
        · exact le_trans (cursor_le_pageMax _ _) (hrest q h' r hr)
      rcases List.mem_cons.mp hs with h' | hs'
      · subst h'; omega
      rcases List.mem_cons.mp hs' with h' | hs'
      · subst h'; simp only at hlt; omega
      · rcases List.mem_cons.mp hq with h' | h'
        · subst h'
          exact syncTrace_isSome_mono _ _ _ hs' _
            (isSome_applyPageRecords_of_mem _ _ _ hr)
        · exact ih _ hAsc.2 s hs' q h' r hr hlt

/-- C2.  The persisted `SyncCursor.updated_at` for one (entity_type,
repo) pair is monotonically non-decreasing across sync runs — after N+1
runs it is at least its value after N runs — and it advances only after
the corresponding page's batch transaction has committed: at every
durable state of a sync loop over an ascending page stream, every record
strictly below the cursor is already present in the table. -/
theorem cursor_monotone_and_commit_first (upstream : List RawRecord)
    (st0 : SyncState) (n : Nat) (st : SyncState)
    (pages : List (List RawRecord))
    (hAsc : pagesAscending st.cursor pages = true) :
    ((syncRun upstream)^[n] st0).cursor ≤ ((syncRun upstream)^[n + 1] st0).cursor ∧
    ∀ s ∈ syncTrace st pages, ∀ p ∈ pages, ∀ r ∈ p,
      r.updatedAt < s.cursor → (lookupTbl s.tbl (recKey r)).isSome := by
  constructor
  · rw [Function.iterate_succ_apply']
    exact cursor_le_runSyncPages _ _
  · exact syncTrace_commit_before_advance st pages hAsc

/-- Witness for `cursor_monotone_and_commit_first` at a concrete state
and two-page ascending stream. -/
theorem cursor_monotone_and_commit_first_witness :
    (pagesAscending (⟨[], 3⟩ : SyncState).cursor
        [[⟨"sdk-python", 1, 4, 0⟩], [⟨"sdk-python", 2, 9, 0⟩]] = true) ∧
    (((syncRun [⟨"sdk-python", 1, 4, 0⟩])^[1] ⟨[], 0⟩).cursor ≤
        ((syncRun [⟨"sdk-python", 1, 4, 0⟩])^[2] ⟨[], 0⟩).cursor ∧
      ∀ s ∈ syncTrace ⟨[], 3⟩ [[⟨"sdk-python", 1, 4, 0⟩], [⟨"sdk-python", 2, 9, 0⟩]],
        ∀ p ∈ [[⟨"sdk-python", 1, 4, 0⟩], [⟨"sdk-python", 2, 9, 0⟩]], ∀ r ∈ p,
          r.updatedAt < s.cursor → (lookupTbl s.tbl (recKey r)).isSome) :=
  ⟨by decide, cursor_monotone_and_commit_first [⟨"sdk-python", 1, 4, 0⟩] ⟨[], 0⟩ 1
    ⟨[], 3⟩ [[⟨"sdk-python", 1, 4, 0⟩], [⟨"sdk-python", 2, 9, 0⟩]] (by decide)⟩

/-! ## Aggregation engine: daily metrics as a pure function of raw tables -/

/-- Calendar day of an hour-resolution timestamp. -/
def dayOf (t : Nat) : Nat := t / 24

/-- Conclusion of a CI run. -/
inductive CIConclusion
  | success
  | failure
  | cancelled
deriving DecidableEq, Repr

/-- A pull-request row of the raw tables (the columns the aggregation
reads). -/
structure PRRow where
  uid : Nat
  author : String
  createdAt : Nat
  mergedAt : Option Nat
  closedAt : Option Nat
  additions : Nat
  deletions : Nat
deriving DecidableEq, Repr

/-- A CI-run row of the raw tables. -/
structure CIRow where
  uid : Nat
  conclusion : CIConclusion
  startedAt : Nat
deriving DecidableEq, Repr

/-- A star-event row of the raw tables (append-only). -/
structure StarRow where
  user : String
  starredAt : Nat
deriving DecidableEq, Repr

/-- A first-response event (comment or review) attached to a parent
issue or pull request. -/
structure ResponseRow where
  parentUid : Nat
  createdAt : Nat
deriving DecidableEq, Repr

/-- A snapshot of the raw tables for one repository, plus the team
roster configuration, as read by one aggregation run.  The lists carry
the rows in whatever order the storage layer iterates them. -/
structure RawSnapshot where
  prs : List PRRow
  cis : List CIRow
  stars : List StarRow
  responses : List ResponseRow
  team : List String
deriving Repr

/-- The derived per-(repo, date) row recomputed by each aggregation
run. -/
structure DailyMetric where
  prsOpened : Nat
  prsMerged : Nat
  prsClosed : Nat
  avgMergeTimeHours : ℚ
  avgFirstResponseHours : ℚ
  ciFailureRate : ℚ
  codeChurn : Nat
  cumulativeStars : Nat
  communityPrPct : ℚ
deriving DecidableEq, Repr

/-- Whether a PR was opened on the given day. -/
def openedOn (date : Nat) (p : PRRow) : Bool := decide (dayOf p.createdAt = date)

/-- Whether a PR was merged on the given day. -/
def mergedOn (date : Nat) (p : PRRow) : Bool :=
  match p.mergedAt with
  | some m => decide (dayOf m = date)
  | none => false

/-- Whether a PR was closed on the given day. -/
def closedOn (date : Nat) (p : PRRow) : Bool :=
  match p.closedAt with
  | some c => decide (dayOf c = date)
  | none => false

/-- Time from creation to merge, when merged. -/
def mergeDelay (p : PRRow) : Option ℚ :=
  p.mergedAt.map (fun m => (m : ℚ) - (p.createdAt : ℚ))

/-- Average of a list of rationals (0 for the empty list). -/
def ratAvg (l : List ℚ) : ℚ := if l.length = 0 then 0 else l.sum / l.length

/-- Minimum step over an optional accumulator, used to take the minimum
of a list of timestamps. -/
def optMin (x : Nat) (acc : Option Nat) : Option Nat :=
  match acc with
  | none => some x
  | some y => some (min x y)

instance : LeftCommutative optMin :=
  ⟨by intro a b c; cases c <;> simp [optMin, Nat.min_comm, Nat.min_left_comm]⟩

/-- Earliest response timestamp recorded for a parent id, if any. -/
def minResponse (responses : List ResponseRow) (uid : Nat) : Option Nat :=
  ((responses.filter (fun c => decide (c.parentUid = uid))).map
    ResponseRow.createdAt).foldr optMin none

/-- Time from a PR's creation to its first response, when one exists. -/
def responseDelay (responses : List ResponseRow) (p : PRRow) : Option ℚ :=
  (minResponse responses p.uid).map (fun t => (t : ℚ) - (p.createdAt : ℚ))

/-- Whether a PR author is a community (non-team) account. -/
def isCommunity (team : List String) (p : PRRow) : Bool := decide (p.author ∉ team)

/-- Modelled from the spec: the Aggregation Engine's per-(repo, date)
computation (§4.4; `aggregates.rs` missing from the source tree): PRs
opened/merged/closed, average time-to-merge over PRs merged that day,
average time-to-first-response over PRs opened that day that received a
response, CI failure rate over that day's runs, code churn of PRs merged
that day, cumulative star count, and community-PR percentage of PRs
opened that day. -/
def aggregate (s : RawSnapshot) (date : Nat) : DailyMetric :=
  let opened := s.prs.filter (openedOn date)
  let merged := s.prs.filter (mergedOn date)
  let closed := s.prs.filter (closedOn date)
  let dayRuns := s.cis.filter (fun c => decide (dayOf c.startedAt = date))
  let failedRuns := dayRuns.filter (fun c => decide (c.conclusion = CIConclusion.failure))
  let community := opened.filter (isCommunity s.team)
  { prsOpened := opened.length
    prsMerged := merged.length
    prsClosed := closed.length
    avgMergeTimeHours := ratAvg (merged.filterMap mergeDelay)
    avgFirstResponseHours := ratAvg (opened.filterMap (responseDelay s.responses))
    ciFailureRate :=
      if dayRuns.length = 0 then 0 else (failedRuns.length : ℚ) / (dayRuns.length : ℚ)
    codeChurn := (merged.map (fun p => p.additions + p.deletions)).sum
    cumulativeStars := (s.stars.filter (fun e => decide (dayOf e.starredAt ≤ date))).length
    communityPrPct :=
      if opened.length = 0 then 0
      else (community.length : ℚ) * 100 / (opened.length : ℚ) }

theorem minResponse_perm (rs rs' : List ResponseRow) (h : rs.Perm rs')
    (uid : Nat) : minResponse rs uid = minResponse rs' uid :=
  ((h.filter _).map ResponseRow.createdAt).foldr_eq none

theorem ratAvg_perm (l l' : List ℚ) (h : l.Perm l') : ratAvg l = ratAvg l' := by
  rw [ratAvg, ratAvg, h.length_eq, h.sum_eq]

/-- C3.  Aggregation is deterministic: for a fixed raw-table content —
the same row multisets, in any iteration order — any two aggregation
runs for the same (repo, date) produce identical `DailyMetric` rows; the
result is a pure function of the raw tables, with no dependence on
wall-clock time, external state, or iteration order. -/
theorem aggregation_deterministic (s s' : RawSnapshot) (date : Nat)
    (hprs : s.prs.Perm s'.prs) (hcis : s.cis.Perm s'.cis)
    (hstars : s.stars.Perm s'.stars) (hresp : s.responses.Perm s'.responses)
    (hteam : s.team.Perm s'.team) :
    aggregate s date = aggregate s' date := by
  have hop := hprs.filter (openedOn date)
  have hmg := hprs.filter (mergedOn date)
  have hcl := hprs.filter (closedOn date)
  have hdr := hcis.filter (fun c => decide (dayOf c.startedAt = date))
  have hfr := hdr.filter (fun c => decide (c.conclusion = CIConclusion.failure))
  have hrespF : responseDelay s.responses = responseDelay s'.responses := by
    funext p
    rw [responseDelay, responseDelay, minResponse_perm _ _ hresp]
  have hteamF : isCommunity s.team = isCommunity s'.team := by
    funext p
    rw [isCommunity, isCommunity]
    exact decide_eq_decide.mpr (not_congr hteam.mem_iff)
  have hcomm : ((s.prs.filter (openedOn date)).filter (isCommunity s.team)).Perm
      ((s'.prs.filter (openedOn date)).filter (isCommunity s'.team)) := by
    rw [hteamF]; exact hop.filter _
  simp only [aggregate]
  congr 1
  · exact hop.length_eq
  · exact hmg.length_eq
  · exact hcl.length_eq
  · exact ratAvg_perm _ _ (hmg.filterMap mergeDelay)
  · rw [hrespF]
    exact ratAvg_perm _ _ (hop.filterMap (responseDelay s'.responses))
  · rw [hdr.length_eq, hfr.length_eq]
  · exact ((hmg.map _).sum_eq)
  · exact (hstars.filter _).length_eq
  · rw [hop.length_eq, hcomm.length_eq]

/-- Witness for `aggregation_deterministic` at two snapshots holding the
same rows in different orders. -/
theorem aggregation_deterministic_witness :
    (([⟨1, "alice", 0, some 2, some 2, 3, 4⟩, ⟨2, "eve", 1, none, none, 0, 0⟩] :
          List PRRow).Perm
        [⟨2, "eve", 1, none, none, 0, 0⟩, ⟨1, "alice", 0, some 2, some 2, 3, 4⟩] ∧
      ([⟨1, CIConclusion.failure, 0⟩, ⟨2, CIConclusion.success, 1⟩] : List CIRow).Perm
        [⟨2, CIConclusion.success, 1⟩, ⟨1, CIConclusion.failure, 0⟩] ∧
      ([⟨"u", 0⟩, ⟨"v", 1⟩] : List StarRow).Perm [⟨"v", 1⟩, ⟨"u", 0⟩] ∧
      ([⟨1, 1⟩, ⟨2, 2⟩] : List ResponseRow).Perm [⟨2, 2⟩, ⟨1, 1⟩] ∧
      (["alice"] : List String).Perm ["alice"]) ∧
    aggregate ⟨[⟨1, "alice", 0, some 2, some 2, 3, 4⟩, ⟨2, "eve", 1, none, none, 0, 0⟩],
        [⟨1, CIConclusion.failure, 0⟩, ⟨2, CIConclusion.success, 1⟩],
        [⟨"u", 0⟩, ⟨"v", 1⟩], [⟨1, 1⟩, ⟨2, 2⟩], ["alice"]⟩ 0 =
      aggregate ⟨[⟨2, "eve", 1, none, none, 0, 0⟩, ⟨1, "alice", 0, some 2, some 2, 3, 4⟩],
        [⟨2, CIConclusion.success, 1⟩, ⟨1, CIConclusion.failure, 0⟩],
        [⟨"v", 1⟩, ⟨"u", 0⟩], [⟨2, 2⟩, ⟨1, 1⟩], ["alice"]⟩ 0 :=
  ⟨⟨by decide, by decide, by decide, by decide, by decide⟩,
    aggregation_deterministic
      ⟨[⟨1, "alice", 0, some 2, some 2, 3, 4⟩, ⟨2, "eve", 1, none, none, 0, 0⟩],
        [⟨1, CIConclusion.failure, 0⟩, ⟨2, CIConclusion.success, 1⟩],
        [⟨"u", 0⟩, ⟨"v", 1⟩], [⟨1, 1⟩, ⟨2, 2⟩], ["alice"]⟩
      ⟨[⟨2, "eve", 1, none, none, 0, 0⟩, ⟨1, "alice", 0, some 2, some 2, 3, 4⟩],
        [⟨2, CIConclusion.success, 1⟩, ⟨1, CIConclusion.failure, 0⟩],
        [⟨"v", 1⟩, ⟨"u", 0⟩], [⟨2, 2⟩, ⟨1, 1⟩], ["alice"]⟩
      0 (by decide) (by decide) (by decide) (by decide) (by decide)⟩

/-! ## Reconciliation (sweep): closing entities deleted upstream -/

/-- Lifecycle state of a locally stored issue or pull request. -/
inductive EntityState
  | opened
  | closed
  | merged
deriving DecidableEq, Repr

/-- A locally stored issue or pull request as the sweep pass sees it. -/
structure Entity where
  uid : Nat
  repo : String
  state : EntityState
  deleted : Bool
  closedAt : Option Nat
  updatedAt : Nat
  payload : Nat
deriving DecidableEq, Repr

/-- Result of re-fetching one entity by ID from the upstream API. -/
inductive LookupResult
  | notFound
  | found (e : Entity)
  | netError
deriving DecidableEq, Repr

/-- Whether an entity is locally marked open. -/
def isOpenEnt (e : Entity) : Bool := decide (e.state = EntityState.opened)

/-- Modelled from the spec: marking an entity deleted-and-closed locally
with a timestamp of the sweep run (§4.3; `main.rs` missing from the
source tree). -/
def markDeleted (now : Nat) (e : Entity) : Entity :=
  { e with
    state := EntityState.closed
    deleted := true
    closedAt := some now
    updatedAt := now }

/-- A locally stored entity table keyed by (repo, upstream_id). -/
abbrev EntityTable := List ((String × Nat) × Entity)

/-- Modelled from the spec: the per-item sweep decision — for an entity
locally marked open, re-fetch by ID; `notFound` marks it
deleted-and-closed, a returned state is upserted normally, and a network
failure leaves it untouched (§4.3; `main.rs` missing from the source
tree). -/
def sweepEnt (lk : String × Nat → LookupResult) (now : Nat)
    (k : String × Nat) (e : Entity) : Entity :=
  if isOpenEnt e then
    match lk k with
    | LookupResult.notFound => markDeleted now e
    | LookupResult.found e' => e'
    | LookupResult.netError => e
  else e

/-- Modelled from the spec: the sweep pass over the whole table — every
locally-open item is re-checked, non-open items are untouched, and a
warning is logged (the key collected) for every item whose check hit a
network failure (§4.3). -/
def sweepTable (lk : String × Nat → LookupResult) (now : Nat)
    (tbl : EntityTable) : EntityTable × List (String × Nat) :=
  (tbl.map (fun p => (p.1, sweepEnt lk now p.1 p.2)),
   tbl.filterMap (fun p =>
     if isOpenEnt p.2 = true ∧ lk p.1 = LookupResult.netError
     then some p.1 else none))

/-- Count of locally-open items, as read by the "open items" panels. -/
def openCount (tbl : EntityTable) : Nat :=
  (tbl.filter (fun p => isOpenEnt p.2)).length

theorem lookupTbl_map_entry {κ α : Type} [DecidableEq κ]
    (tbl : List (κ × α)) (g : κ → α → α) (k : κ) :
    lookupTbl (tbl.map (fun p => (p.1, g p.1 p.2))) k =
      (lookupTbl tbl k).map (g k) := by
  induction tbl with
  | nil => rfl
  | cons p tbl ih =>
      obtain ⟨k', v'⟩ := p
      by_cases h : k' = k
      · subst h; simp [lookupTbl]
      · simp [lookupTbl, h, ih]

theorem lookupTbl_mem {κ α : Type} [DecidableEq κ]
    (tbl : List (κ × α)) (k : κ) (v : α) (h : lookupTbl tbl k = some v) :
    (k, v) ∈ tbl := by
  induction tbl with
  | nil => simp [lookupTbl] at h
  | cons p tbl ih =>
      obtain ⟨k', v'⟩ := p
      by_cases hk : k' = k
      · subst hk
        have h' : v' = v := by simpa [lookupTbl] using h
        subst h'
        exact List.mem_cons_self _ _
      · simp only [lookupTbl, if_neg hk] at h
        exact List.mem_cons_of_mem _ (ih h)

/-- C4.  Sweep correctness: an entity locally marked open whose by-ID
upstream lookup returns "not found" is marked deleted-and-closed with
the sweep run's timestamp, after which no entry at its key is open (so
it is excluded from "open items" counts); an open entity whose lookup
returns a state is upserted to that state. -/
theorem sweep_correct (lk : String × Nat → LookupResult) (now : Nat)
    (tbl : EntityTable) (k : String × Nat) (e : Entity)
    (hmem : lookupTbl tbl k = some e) (hopen : isOpenEnt e = true) :
    (lk k = LookupResult.notFound →
      lookupTbl (sweepTable lk now tbl).1 k = some (markDeleted now e) ∧
      (markDeleted now e).state = EntityState.closed ∧
      (markDeleted now e).deleted = true ∧
      (markDeleted now e).closedAt = some now ∧
      ∀ p ∈ (sweepTable lk now tbl).1, p.1 = k → isOpenEnt p.2 = false) ∧
    (∀ e', lk k = LookupResult.found e' →
      lookupTbl (sweepTable lk now tbl).1 k = some e') := by
  constructor
  · intro hnf
    refine ⟨?_, rfl, rfl, rfl, ?_⟩
    · show lookupTbl (tbl.map _) k = _
      rw [lookupTbl_map_entry tbl (sweepEnt lk now) k, hmem]
      simp [sweepEnt, hopen, hnf]
    · intro p hp hpk
      rcases List.mem_map.mp hp with ⟨q, _hq, hq'⟩
      subst hq'
      simp only at hpk
      subst hpk
      by_cases hq2 : isOpenEnt q.2 = true
      · have hst : q.2.state = EntityState.opened := by
          simpa [isOpenEnt] using hq2
        simp [sweepEnt, isOpenEnt, hst, hnf, markDeleted]
      · simp only [sweepEnt, if_neg hq2]
        simpa using hq2
  · intro e' hf
    show lookupTbl (tbl.map _) k = _
    rw [lookupTbl_map_entry tbl (sweepEnt lk now) k, hmem]
    simp [sweepEnt, hopen, hf]

/-- A concrete locally-open pull request and its one-row table, used as
test data. -/
def entOpen1 : Entity := ⟨1, "sdk-python", EntityState.opened, false, none, 5, 0⟩

/-- A one-row entity table holding `entOpen1`. -/
def entTbl1 : EntityTable := [(("sdk-python", 1), entOpen1)]

/-- A second concrete locally-open pull request and its table. -/
def entOpen2 : Entity := ⟨2, "sdk-python", EntityState.opened, false, none, 6, 1⟩

/-- A one-row entity table holding `entOpen2`. -/
def entTbl2 : EntityTable := [(("sdk-python", 2), entOpen2)]

/-- Witness for `sweep_correct` at a concrete table whose single open
item is gone upstream. -/
theorem sweep_correct_witness :
    (lookupTbl entTbl1 ("sdk-python", 1) = some entOpen1 ∧
      isOpenEnt entOpen1 = true) ∧
    (((fun _ => LookupResult.notFound) ("sdk-python", 1) = LookupResult.notFound →
      lookupTbl (sweepTable (fun _ => LookupResult.notFound) 9 entTbl1).1
          ("sdk-python", 1) = some (markDeleted 9 entOpen1) ∧
      (markDeleted 9 entOpen1).state = EntityState.closed ∧
      (markDeleted 9 entOpen1).deleted = true ∧
      (markDeleted 9 entOpen1).closedAt = some 9 ∧
      ∀ p ∈ (sweepTable (fun _ => LookupResult.notFound) 9 entTbl1).1,
        p.1 = ("sdk-python", 1) → isOpenEnt p.2 = false) ∧
    (∀ e', (fun _ => LookupResult.notFound) ("sdk-python", 1) = LookupResult.found e' →
      lookupTbl (sweepTable (fun _ => LookupResult.notFound) 9 entTbl1).1
          ("sdk-python", 1) = some e')) :=
  ⟨⟨by decide, by decide⟩,
    sweep_correct (fun _ => LookupResult.notFound) 9 entTbl1
      ("sdk-python", 1) entOpen1 (by decide) (by decide)⟩

/-- C9.  Frame property of sweep under network failure: a network
failure while checking one specific open item leaves that item's local
record unchanged — it is still the same record, still considered open —
a warning naming it is logged, and it remains in the open set that the
next sweep re-checks. -/
theorem sweep_net_failure_frame (lk : String × Nat → LookupResult)
    (now : Nat) (tbl : EntityTable) (k : String × Nat) (e : Entity)
    (hmem : lookupTbl tbl k = some e) (hopen : isOpenEnt e = true)
    (herr : lk k = LookupResult.netError) :
    lookupTbl (sweepTable lk now tbl).1 k = some e ∧
    isOpenEnt e = true ∧
    k ∈ (sweepTable lk now tbl).2 := by
  refine ⟨?_, hopen, ?_⟩
  · show lookupTbl (tbl.map _) k = _
    rw [lookupTbl_map_entry tbl (sweepEnt lk now) k, hmem]
    simp [sweepEnt, hopen, herr]
  · show k ∈ tbl.filterMap _
    rw [List.mem_filterMap]
    exact ⟨(k, e), lookupTbl_mem tbl k e hmem, by simp [hopen, herr]⟩

/-- Witness for `sweep_net_failure_frame` at a concrete table whose only
open item hits a network failure. -/
theorem sweep_net_failure_frame_witness :
    (lookupTbl entTbl2 ("sdk-python", 2) = some entOpen2 ∧
      isOpenEnt entOpen2 = true ∧
      (fun _ => LookupResult.netError) ("sdk-python", 2) = LookupResult.netError) ∧
    (lookupTbl (sweepTable (fun _ => LookupResult.netError) 9 entTbl2).1
        ("sdk-python", 2) = some entOpen2 ∧
      isOpenEnt entOpen2 = true ∧
      ("sdk-python", 2) ∈ (sweepTable (fun _ => LookupResult.netError) 9 entTbl2).2) :=
  ⟨⟨by decide, by decide, by decide⟩,
    sweep_net_failure_frame (fun _ => LookupResult.netError) 9 entTbl2
      ("sdk-python", 2) entOpen2 (by decide) (by decide) (by decide)⟩

/-! ## The `sync` command over all (repository, entity type) pairs -/

/-- A (repository, entity_type) pair driven by one `sync` run. -/
abbrev PairId := String × String

/-- Per-pair sync state held in the database, defaulting to an empty
table with an epoch-zero cursor when the pair was never synced. -/
def pairState (db : List (PairId × SyncState)) (pid : PairId) : SyncState :=
  (lookupTbl db pid).getD ⟨[], 0⟩

/-- Modelled from the spec: committing one pair's fetched page — the
pair's table and cursor are replaced by the result of processing the
page (§4.2; `main.rs` missing from the source tree). -/
def runPair (db : List (PairId × SyncState)) (pid : PairId)
    (page : List RawRecord) : List (PairId × SyncState) :=
  upsert db pid (applyPage (pairState db pid) page)

/-- Modelled from the spec: the `sync` command's loop over every
(repository, entity_type) pair; a pair whose fetch fails (after the
bounded retries, `fetch pid = none`) is skipped, and the run moves to
the next pair without aborting (§4.2 failure semantics; `main.rs`
missing from the source tree). -/
def runSyncAllDb (fetch : PairId → Option (List RawRecord)) :
    List PairId → List (PairId × SyncState) → List (PairId × SyncState)
  | [], db => db
  | pid :: rest, db =>
      match fetch pid with
      | none => runSyncAllDb fetch rest db
      | some page => runSyncAllDb fetch rest (runPair db pid page)

/-- The pairs whose fetch failed during the run — each is reported in
the warning summary. -/
def failedPairs (fetch : PairId → Option (List RawRecord))
    (pairs : List PairId) : List PairId :=
  pairs.filter (fun pid => (fetch pid).isNone)

/-- Modelled from the spec: the `sync` command's exit code — non-zero
only when every pair failed (§4.2 "exits non-zero only if every entity
type failed"; `main.rs` missing from the source tree). -/
def syncExitCode (fetch : PairId → Option (List RawRecord))
    (pairs : List PairId) : Nat :=
  if pairs ≠ [] ∧ (failedPairs fetch pairs).length = pairs.length then 1 else 0

theorem runSyncAllDb_not_mem (fetch : PairId → Option (List RawRecord))
    (pairs : List PairId) (db : List (PairId × SyncState)) (q : PairId)
    (hq : q ∉ pairs) :
    lookupTbl (runSyncAllDb fetch pairs db) q = lookupTbl db q := by
  induction pairs generalizing db with
  | nil => rfl
  | cons r rest ih =>
      simp only [List.mem_cons, not_or] at hq
      cases hf : fetch r with
      | none => simp only [runSyncAllDb, hf]; exact ih _ hq.2
      | some page =>
          simp only [runSyncAllDb, hf]
          rw [ih _ hq.2, runPair, lookupTbl_upsert_ne _ _ _ _ (fun h => hq.1 h.symm)]

theorem runSyncAllDb_lookup (fetch : PairId → Option (List RawRecord))
    (pairs : List PairId) (db : List (PairId × SyncState)) (q : PairId)
    (page : List RawRecord) (hnd : pairs.Nodup) (hq : q ∈ pairs)
    (hfq : fetch q = some page) :
    lookupTbl (runSyncAllDb fetch pairs db) q =
      some (applyPage (pairState db q) page) := by
  induction pairs generalizing db with
  | nil => simp at hq
  | cons r rest ih =>
      rw [List.nodup_cons] at hnd
      rcases List.mem_cons.mp hq with h | h
      · subst h
        simp only [runSyncAllDb, hfq]
        rw [runSyncAllDb_not_mem fetch rest _ q hnd.1, runPair, lookupTbl_upsert_self]
      · have hrq : r ≠ q := fun hh => hnd.1 (hh ▸ h)
        cases hf : fetch r with
        | none => simp only [runSyncAllDb, hf]; exact ih _ hnd.2 h
        | some pg =>
            simp only [runSyncAllDb, hf]
            rw [ih _ hnd.2 h, pairState,
              runPair, lookupTbl_upsert_ne _ _ _ _ hrq]
            rfl

/-- C5.  Partial-failure isolation: when one (repository, entity_type)
pair's fetch fails on every retry and another pair's fetch succeeds, the
succeeding pair's sync still completes and its page is committed to the
database; the failed pair is reported in the warning summary; the exit
code is zero; and in general the exit code is non-zero only when every
pair failed. -/
theorem sync_partial_failure_isolated
    (fetch : PairId → Option (List RawRecord)) (pairs : List PairId)
    (db : List (PairId × SyncState)) (p q : PairId) (page : List RawRecord)
    (hnd : pairs.Nodup) (hp : p ∈ pairs) (hq : q ∈ pairs)
    (hfp : fetch p = none) (hfq : fetch q = some page) :
    lookupTbl (runSyncAllDb fetch pairs db) q =
      some (applyPage (pairState db q) page) ∧
    p ∈ failedPairs fetch pairs ∧
    syncExitCode fetch pairs = 0 ∧
    (∀ (f : PairId → Option (List RawRecord)) (ps : List PairId),
      syncExitCode f ps ≠ 0 → (failedPairs f ps).length = ps.length) := by
  refine ⟨runSyncAllDb_lookup fetch pairs db q page hnd hq hfq, ?_, ?_, ?_⟩
  · rw [failedPairs, List.mem_filter]
    exact ⟨hp, by simp [hfp]⟩
  · have hlt : (failedPairs fetch pairs).length ≠ pairs.length := by
      intro hlen
      have hall := List.filter_length_eq_length.mp hlen q hq
      rw [hfq] at hall
      simp at hall
    rw [syncExitCode, if_neg]
    intro hcon
    exact hlt hcon.2
  · intro f ps hne
    rw [syncExitCode] at hne
    by_cases hc : ps ≠ [] ∧ (failedPairs f ps).length = ps.length
    · exact hc.2
    · rw [if_neg hc] at hne; exact absurd rfl hne

/-- Witness for `sync_partial_failure_isolated`: repo A's fetch fails,
repo B's succeeds. -/
theorem sync_partial_failure_isolated_witness :
    (([(("A", "issues") : PairId), ("B", "issues")] : List PairId).Nodup ∧
      (("A", "issues") : PairId) ∈ ([("A", "issues"), ("B", "issues")] : List PairId) ∧
      (("B", "issues") : PairId) ∈ ([("A", "issues"), ("B", "issues")] : List PairId) ∧
      (fun pid => if pid = (("A", "issues") : PairId) then none
        else some [(⟨"B", 1, 5, 0⟩ : RawRecord)]) ("A", "issues") = none ∧
      (fun pid => if pid = (("A", "issues") : PairId) then none
        else some [(⟨"B", 1, 5, 0⟩ : RawRecord)]) ("B", "issues") =
        some [⟨"B", 1, 5, 0⟩]) ∧
    (lookupTbl (runSyncAllDb
        (fun pid => if pid = (("A", "issues") : PairId) then none
          else some [(⟨"B", 1, 5, 0⟩ : RawRecord)])
        [("A", "issues"), ("B", "issues")] []) ("B", "issues") =
      some (applyPage (pairState [] ("B", "issues")) [⟨"B", 1, 5, 0⟩]) ∧
    (("A", "issues") : PairId) ∈ failedPairs
      (fun pid => if pid = (("A", "issues") : PairId) then none
        else some [(⟨"B", 1, 5, 0⟩ : RawRecord)]) [("A", "issues"), ("B", "issues")] ∧
    syncExitCode
      (fun pid => if pid = (("A", "issues") : PairId) then none
        else some [(⟨"B", 1, 5, 0⟩ : RawRecord)]) [("A", "issues"), ("B", "issues")] = 0 ∧
    (∀ (f : PairId → Option (List RawRecord)) (ps : List PairId),
      syncExitCode f ps ≠ 0 → (failedPairs f ps).length = ps.length)) :=
  ⟨⟨by decide, by decide, by decide, by decide, by decide⟩,
    sync_partial_failure_isolated
      (fun pid => if pid = (("A", "issues") : PairId) then none
        else some [(⟨"B", 1, 5, 0⟩ : RawRecord)])
      [("A", "issues"), ("B", "issues")] [] ("A", "issues") ("B", "issues")
      [⟨"B", 1, 5, 0⟩] (by decide) (by decide) (by decide) (by decide) (by decide)⟩

/-! ## Global CLI flags -/

/-- Modelled from the spec: parsing of the global `--db-path`/`-d` flag
from the argument list, defaulting to `metrics.db` when neither spelling
is supplied (§6 global flags and the README flag table; `main.rs`
missing from the source tree). -/
def parseDbPath : List String → String
  | [] => "metrics.db"
  | a :: rest =>
      if a = "--db-path" ∨ a = "-d" then
        match rest with
        | v :: _ => v
        | [] => "metrics.db"
      else parseDbPath rest

/-- C7.  The global `--db-path`/`-d` flag defaults to `metrics.db`: any
invocation whose argument list carries neither spelling of the flag —
whatever command it names — resolves the database path to
`metrics.db`. -/
theorem db_path_default (args : List String)
    (h1 : "--db-path" ∉ args) (h2 : "-d" ∉ args) :
    parseDbPath args = "metrics.db" := by
  induction args with
  | nil => rfl
  | cons a rest ih =>
      simp only [List.mem_cons, not_or] at h1 h2
      rw [parseDbPath.eq_def]
      simp only [if_neg]
      rw [if_neg]
      · exact ih h1.2 h2.2
      · rintro (h | h)
        · exact h1.1 h.symm
        · exact h2.1 h.symm

/-- Witness for `db_path_default` on a plain `sync` invocation. -/
theorem db_path_default_witness :
    ("--db-path" ∉ ["sync"] ∧ "-d" ∉ ["sync"]) ∧
    parseDbPath ["sync"] = "metrics.db" :=
  ⟨⟨by decide, by decide⟩, db_path_default ["sync"] (by decide) (by decide)⟩

/-! ## Downloads tracker -/

/-- A (package, registry, date) key of the `PackageDownload` table. -/
abbrev DlKey := String × String × Nat

/-- A package-to-registry mapping entry from `packages.yaml`. -/
structure PackageCfg where
  package : String
  registry : String
deriving DecidableEq, Repr

/-- Modelled from the spec: the default trailing window of
`sync-downloads`, 30 recent days (§6 command table "default trailing 30
days"; `downloads.rs` missing from the source tree). -/
def defaultWindowDays : Nat := 30

/-- The trailing window of the `n` most recent whole days before
`today`. -/
def trailingWindow (today n : Nat) : List Nat :=
  (List.range n).map (fun i => today - 1 - i)

/-- Upserting the fetched value for every key of a list, in order. -/
def upsertAll {κ α : Type} [DecidableEq κ] (f : κ → α) (keys : List κ)
    (db : List (κ × α)) : List (κ × α) :=
  keys.foldl (fun acc k => upsert acc k (f k)) db

/-- Every (package, registry, date) key the incremental downloads sync
touches for a window of `n` days. -/
def windowKeys (pkgs : List PackageCfg) (today n : Nat) : List DlKey :=
  pkgs.flatMap (fun pc => (trailingWindow today n).map
    (fun d => ((pc.package, pc.registry, d) : DlKey)))

/-- Modelled from the spec: the `sync-downloads` incremental mode —
fetch a fixed trailing window of recent days for each configured
package and upsert the counts, overwriting whatever was stored for
those keys (§4.5; `downloads.rs` missing from the source tree). -/
def syncDownloadsRun (dlFetch : DlKey → Nat) (pkgs : List PackageCfg)
    (today n : Nat) (db : List (DlKey × Nat)) : List (DlKey × Nat) :=
  upsertAll dlFetch (windowKeys pkgs today n) db

theorem lookupTbl_upsertAll_not_mem {κ α : Type} [DecidableEq κ]
    (f : κ → α) (keys : List κ) (db : List (κ × α)) (k : κ)
    (h : k ∉ keys) :
    lookupTbl (upsertAll f keys db) k = lookupTbl db k := by
  induction keys generalizing db with
  | nil => rfl
  | cons k' keys ih =>
      simp only [List.mem_cons, not_or] at h
      show lookupTbl (upsertAll f keys (upsert db k' (f k'))) k = _
      rw [ih _ h.2, lookupTbl_upsert_ne _ _ _ _ (fun hh => h.1 hh.symm)]

theorem lookupTbl_upsertAll_mem {κ α : Type} [DecidableEq κ]
    (f : κ → α) (keys : List κ) (db : List (κ × α)) (k : κ)
    (h : k ∈ keys) :
    lookupTbl (upsertAll f keys db) k = some (f k) := by
  induction keys generalizing db with
  | nil => simp at h
  | cons k' keys ih =>
      by_cases hk : k ∈ keys
      · exact ih _ hk
      · have hkk : k = k' := by
          rcases List.mem_cons.mp h with h' | h'
          · exact h'
          · exact absurd h' hk
        subst hkk
        show lookupTbl (upsertAll f keys (upsert db k (f k))) k = _
        rw [lookupTbl_upsertAll_not_mem f keys _ k hk, lookupTbl_upsert_self]

/-- C8.  `sync-downloads` fetches a fixed trailing window of recent days
— 30 by default — and upserts the fetched counts: for every configured
package and every day of the window, the stored count after the run is
the freshly fetched one, whatever count (if any) the table previously
held at that (package, registry, date) key. -/
theorem sync_downloads_window (dlFetch : DlKey → Nat)
    (pkgs : List PackageCfg) (today : Nat) (db : List (DlKey × Nat))
    (pc : PackageCfg) (d : Nat) (hpc : pc ∈ pkgs)
    (hd : d ∈ trailingWindow today defaultWindowDays) :
    defaultWindowDays = 30 ∧
    lookupTbl (syncDownloadsRun dlFetch pkgs today defaultWindowDays db)
        (pc.package, pc.registry, d) =
      some (dlFetch (pc.package, pc.registry, d)) := by
  refine ⟨rfl, ?_⟩
  refine lookupTbl_upsertAll_mem _ _ _ _ ?_
  rw [windowKeys, List.mem_flatMap]
  exact ⟨pc, hpc, List.mem_map.mpr ⟨d, hd, rfl⟩⟩

/-- Witness for `sync_downloads_window`: one PyPI package, a stale count
of 7 stored for day 39, overwritten by the fetched count 42. -/
theorem sync_downloads_window_witness :
    ((⟨"strands-agents", "pypi"⟩ : PackageCfg) ∈
        [(⟨"strands-agents", "pypi"⟩ : PackageCfg)] ∧
      39 ∈ trailingWindow 40 defaultWindowDays) ∧
    (defaultWindowDays = 30 ∧
      lookupTbl (syncDownloadsRun (fun _ => 42) [⟨"strands-agents", "pypi"⟩] 40
          defaultWindowDays [((("strands-agents", "pypi", 39) : DlKey), 7)])
        ("strands-agents", "pypi", 39) = some 42) :=
  ⟨⟨by decide, by decide⟩,
    sync_downloads_window (fun _ => 42) [⟨"strands-agents", "pypi"⟩] 40
      [((("strands-agents", "pypi", 39) : DlKey), 7)]
      ⟨"strands-agents", "pypi"⟩ 39 (by decide) (by decide)⟩

/-! ## The command surface and the API-token guard -/

/-- The CLI's command verbs (§6). -/
inductive Command
  | sync
  | sweep
  | query (sql : String)
  | loadGoals (path : String)
  | listGoals
  | loadTeam (path : String)
  | syncDownloads
  | backfillDownloads
deriving DecidableEq, Repr

/-- Which commands touch the code-hosting API and therefore need the
bearer token; downloads and config commands do not. -/
def touchesApi : Command → Bool
  | Command.sync => true
  | Command.sweep => true
  | _ => false

/-- A goal threshold entry from `goals.yaml`. -/
structure GoalSpec where
  value : ℚ
  lowerIsBetter : Bool
deriving DecidableEq, Repr

/-- The external inputs one CLI invocation can draw on: the code-hosting
API, the by-ID lookup used by sweep, the registry download API, the
package mapping, and the parsed configuration files (`none` when a file
could not be loaded). -/
structure CliEnv where
  fetch : PairId → Option (List RawRecord)
  pairs : List PairId
  lk : String × Nat → LookupResult
  now : Nat
  dlFetch : DlKey → Nat
  pkgs : List PackageCfg
  today : Nat
  goalsFile : Option (List (String × GoalSpec))
  teamFile : Option (List String)

/-- The persisted state one CLI invocation reads and writes: the
database tables and the warning/output log. -/
structure World where
  raw : List (PairId × SyncState)
  entities : EntityTable
  downloads : List (DlKey × Nat)
  goals : List (String × GoalSpec)
  team : List String
  output : List String
deriving Repr

/-- The warning emitted when the bearer token is absent. -/
def tokenWarning : String := "WARNING: GITHUB_TOKEN is not set. Skipping."

/-- Per-registry maximum backfill window (PyPI exposes about 180 days,
npm about 365). -/
def registryBackfillDays (r : String) : Nat := if r = "pypi" then 180 else 365

/-- Modelled from the spec: one CLI invocation — a command applied to
the world, returning the new world and the exit code (§6; `main.rs`
missing from the source tree).  A command that touches the code-hosting
API no-ops with a warning and a zero exit code when the token is absent;
a config command whose file could not be loaded exits non-zero with no
state written. -/
def runCommand (env : CliEnv) (token : Option String) :
    Command → World → World × Nat
  | Command.sync, w =>
      if token.isNone then
        ({ w with output := w.output ++ [tokenWarning] }, 0)
      else
        ({ w with raw := runSyncAllDb env.fetch env.pairs w.raw },
          syncExitCode env.fetch env.pairs)
  | Command.sweep, w =>
      if token.isNone then
        ({ w with output := w.output ++ [tokenWarning] }, 0)
      else
        let r := sweepTable env.lk env.now w.entities
        let warns := r.2.map (fun k => "WARNING: check failed for " ++ k.1)
        ({ w with entities := r.1, output := w.output ++ warns }, 0)
  | Command.query sql, w => ({ w with output := w.output ++ [sql] }, 0)
  | Command.loadGoals _, w =>
      match env.goalsFile with
      | none => (w, 1)
      | some gs => ({ w with goals := gs }, 0)
  | Command.listGoals, w =>
      ({ w with output := w.output ++ (w.goals.map Prod.fst) }, 0)
  | Command.loadTeam _, w =>
      match env.teamFile with
      | none => (w, 1)
      | some ts => ({ w with team := ts }, 0)
  | Command.syncDownloads, w =>
      let d := syncDownloadsRun env.dlFetch env.pkgs env.today defaultWindowDays w.downloads
      ({ w with downloads := d }, 0)
  | Command.backfillDownloads, w =>
      let d := env.pkgs.foldl (fun acc pc =>
        upsertAll env.dlFetch
          ((trailingWindow env.today (registryBackfillDays pc.registry)).map
            (fun dd => ((pc.package, pc.registry, dd) : DlKey))) acc) w.downloads
      ({ w with downloads := d }, 0)

/-- C6.  Token guard: for every command that touches the code-hosting
API, an absent bearer token makes the invocation a no-op — every
database table is left untouched, the exit code is zero, and a warning
is appended — while a command that does not need the API, such as
`query`, behaves identically with and without the token. -/
theorem token_guard (env : CliEnv) (cmd : Command) (w : World)
    (h : touchesApi cmd = true) :
    ((runCommand env none cmd w).1.raw = w.raw ∧
      (runCommand env none cmd w).1.entities = w.entities ∧
      (runCommand env none cmd w).1.downloads = w.downloads ∧
      (runCommand env none cmd w).1.goals = w.goals ∧
      (runCommand env none cmd w).1.team = w.team ∧
      (runCommand env none cmd w).2 = 0 ∧
      (runCommand env none cmd w).1.output = w.output ++ [tokenWarning]) ∧
    (∀ (sql tok : String) (w' : World),
      runCommand env none (Command.query sql) w' =
        runCommand env (some tok) (Command.query sql) w') := by
  constructor
  · cases cmd <;> simp_all [touchesApi, runCommand]
  · intro sql tok w'
    rfl

/-- A trivial concrete environment for the token-guard witness. -/
def envW : CliEnv :=
  ⟨fun _ => none, [], fun _ => LookupResult.notFound, 0, fun _ => 0, [], 0,
    none, none⟩

/-- A trivial concrete world for the token-guard witness. -/
def worldW : World := ⟨[], [], [], [], [], []⟩

/-- Witness for `token_guard` on the `sync` command with no token. -/
theorem token_guard_witness :
    touchesApi Command.sync = true ∧
    (((runCommand envW none Command.sync worldW).1.raw = worldW.raw ∧
      (runCommand envW none Command.sync worldW).1.entities = worldW.entities ∧
      (runCommand envW none Command.sync worldW).1.downloads = worldW.downloads ∧
      (runCommand envW none Command.sync worldW).1.goals = worldW.goals ∧
      (runCommand envW none Command.sync worldW).1.team = worldW.team ∧
      (runCommand envW none Command.sync worldW).2 = 0 ∧
      (runCommand envW none Command.sync worldW).1.output =
        worldW.output ++ [tokenWarning]) ∧
    (∀ (sql tok : String) (w' : World),
      runCommand envW none (Command.query sql) w' =
        runCommand envW (some tok) (Command.query sql) w')) :=
  ⟨by decide, token_guard envW Command.sync worldW (by decide)⟩

/-! ## The daily pipeline: `set -e` script and `&&` cron chain -/

/-- The five `strands-metrics` invocations of the daily pipeline, in
order, as they appear both in the `sync-all` shell script and in the
container entrypoint's cron line. -/
inductive PipelineCmd
  | syncCmd
  | sweepCmd
  | syncDownloadsCmd
  | loadGoalsCmd
  | loadTeamCmd
deriving DecidableEq, Repr

/-- The `sync-all` script's command sequence: `sync`, `sweep`,
`sync-downloads`, `load-goals`, `load-team` (from the shell source; the
script runs under `set -e`). -/
def syncAllScript : List PipelineCmd :=
  [PipelineCmd.syncCmd, PipelineCmd.sweepCmd, PipelineCmd.syncDownloadsCmd,
    PipelineCmd.loadGoalsCmd, PipelineCmd.loadTeamCmd]

/-- The cron entry's command chain in the container entrypoint: the same
five commands joined with `&&` (from the shell source). -/
def cronChain : List PipelineCmd :=
  [PipelineCmd.syncCmd, PipelineCmd.sweepCmd, PipelineCmd.syncDownloadsCmd,
    PipelineCmd.loadGoalsCmd, PipelineCmd.loadTeamCmd]

/-- `set -e` semantics over a command list given each command's exit
code: commands run in order and the script aborts right after the first
command that exits non-zero; the result is the list of commands that
actually ran. -/
def runSetE (ec : PipelineCmd → Nat) : List PipelineCmd → List PipelineCmd
  | [] => []
  | c :: cs => if ec c = 0 then c :: runSetE ec cs else [c]

/-- `&&`-chain semantics: each command runs only if the previous one
exited zero; the result is the list of commands that actually ran. -/
def runAndChain (ec : PipelineCmd → Nat) : List PipelineCmd → List PipelineCmd
  | [] => []
  | c :: cs => if ec c = 0 then c :: runAndChain ec cs else [c]

/-- C10.  The daily pipeline fails fast rather than isolating a failure:
if `sync` exits non-zero, the `set -e` script and the `&&` cron chain
both stop after it, so `sweep`, `sync-downloads`, `load-goals` and
`load-team` do not execute that run; in general a failing command
suppresses everything chained after it. -/
theorem pipeline_fail_fast (ec : PipelineCmd → Nat)
    (h : ec PipelineCmd.syncCmd ≠ 0) :
    runSetE ec syncAllScript = [PipelineCmd.syncCmd] ∧
    runAndChain ec cronChain = [PipelineCmd.syncCmd] ∧
    PipelineCmd.sweepCmd ∉ runSetE ec syncAllScript ∧
    PipelineCmd.syncDownloadsCmd ∉ runSetE ec syncAllScript ∧
    PipelineCmd.loadGoalsCmd ∉ runSetE ec syncAllScript ∧
    PipelineCmd.loadTeamCmd ∉ runSetE ec syncAllScript ∧
    (∀ (c : PipelineCmd) (cs : List PipelineCmd), ec c ≠ 0 →
      runSetE ec (c :: cs) = [c] ∧ runAndChain ec (c :: cs) = [c]) := by
  have hs : runSetE ec syncAllScript = [PipelineCmd.syncCmd] := by
    rw [syncAllScript, runSetE, if_neg h]
  have hc : runAndChain ec cronChain = [PipelineCmd.syncCmd] := by
    rw [cronChain, runAndChain, if_neg h]
  refine ⟨hs, hc, ?_, ?_, ?_, ?_, ?_⟩
  · rw [hs]; decide
  · rw [hs]; decide
  · rw [hs]; decide
  · rw [hs]; decide
  · intro c cs hcne
    exact ⟨by rw [runSetE, if_neg hcne], by rw [runAndChain, if_neg hcne]⟩

/-- Witness for `pipeline_fail_fast` with a concrete exit-code
assignment where only `sync` fails. -/
theorem pipeline_fail_fast_witness :
    ((fun c => if c = PipelineCmd.syncCmd then 1 else 0) PipelineCmd.syncCmd ≠ 0) ∧
    (runSetE (fun c => if c = PipelineCmd.syncCmd then 1 else 0) syncAllScript =
        [PipelineCmd.syncCmd] ∧
      runAndChain (fun c => if c = PipelineCmd.syncCmd then 1 else 0) cronChain =
        [PipelineCmd.syncCmd] ∧
      PipelineCmd.sweepCmd ∉
        runSetE (fun c => if c = PipelineCmd.syncCmd then 1 else 0) syncAllScript ∧
      PipelineCmd.syncDownloadsCmd ∉
        runSetE (fun c => if c = PipelineCmd.syncCmd then 1 else 0) syncAllScript ∧
      PipelineCmd.loadGoalsCmd ∉
        runSetE (fun c => if c = PipelineCmd.syncCmd then 1 else 0) syncAllScript ∧
      PipelineCmd.loadTeamCmd ∉
        runSetE (fun c => if c = PipelineCmd.syncCmd then 1 else 0) syncAllScript ∧
      (∀ (c : PipelineCmd) (cs : List PipelineCmd),
        (fun c => if c = PipelineCmd.syncCmd then 1 else 0) c ≠ 0 →
        runSetE (fun c => if c = PipelineCmd.syncCmd then 1 else 0) (c :: cs) = [c] ∧
        runAndChain (fun c => if c = PipelineCmd.syncCmd then 1 else 0) (c :: cs) =
          [c])) :=
  ⟨by decide,
    pipeline_fail_fast (fun c => if c = PipelineCmd.syncCmd then 1 else 0)
      (by decide)⟩

end StrandsMetrics
